import Mathlib

/-!
Shallow embedding of `src/yml_to_requirements.py` from the repository
El3ssar/generate-reqs, together with proofs about its pipeline
(parse → lookup → filter → write).

Strings are Lean `String`s; character-level operations (Python's
`str.split('=')`, substring tests with `in`, `str.splitlines()`) are
modelled on `List Char` via `String.toList` / `List.asString`.
External subprocess invocations are modelled by their observable
result (exit code, stdout, stderr) passed in as data; `sys.exit(1)`
together with the `logging.error` message is modelled by an
`Except`-style error value carrying the exit code and the message.
-/

namespace GenerateReqs

/-- Models Python `str.split(sep)` for a single-character separator:
splits the character list at every occurrence of `c`, keeping empty
fields. Never returns `[]` (Python `split` always yields at least one
field). -/
def splitOnChar (c : Char) : List Char → List (List Char)
  | [] => [[]]
  | a :: rest =>
    if a = c then [] :: splitOnChar c rest
    else (a :: (splitOnChar c rest).headD []) :: (splitOnChar c rest).tail

/-- Models Python `needle in hay` (substring containment) on character
lists: some suffix of `hay` starts with `needle`. -/
def listContainsSub (needle hay : List Char) : Bool :=
  hay.tails.any (fun t => needle.isPrefixOf t)

/-- Models `pkg.split('=')[0]` (the text before the first `=`, or the
whole string when it has no `=`). -/
def pkgName (s : String) : String :=
  ((splitOnChar '=' s.toList).headD []).asString

/-- Models `'='.join(line.split('=')[:2])` from `get_conda_list_versions`:
the first two `=`-delimited fields of the line, joined by `=`. -/
def firstTwoFields (line : String) : String :=
  (List.intercalate ['='] ((splitOnChar '=' line.toList).take 2)).asString

/-- A top-level entry of the `dependencies` sequence of the parsed
environment document: either a plain string, or a mapping (a YAML
dict), carrying its `pip` value when the key `pip` is present. -/
inductive Dep where
  | str (s : String)
  | dict (pip : Option (List String))
deriving DecidableEq

/-- Embeds `parse_environment_yml` (src/yml_to_requirements.py lines
10-25), starting from the already-loaded `dependencies` sequence
(`yaml.safe_load` is an external library): a plain string that does
not contain `pip` nor `python=` as a substring contributes the text
before its first `=`; a dict with a `pip` key contributes each pip
entry with its version stripped; everything else is skipped.
`parse_step` is the body of the `for dep in env['dependencies']`
loop. -/
def parse_step (conda_packages : List String) (dep : Dep) : List String :=
  match dep with
  | Dep.str s =>
    if !(listContainsSub "pip".toList s.toList)
        && !(listContainsSub "python=".toList s.toList) then
      conda_packages ++ [pkgName s]
    else
      conda_packages
  | Dep.dict none => conda_packages
  | Dep.dict (some pipPkgs) =>
    conda_packages ++ pipPkgs.map (fun pkg => pkgName pkg)

/-- Embeds `parse_environment_yml` (lines 10-25) as the fold of
`parse_step` over the `dependencies` sequence. -/
def parse_environment_yml (deps : List Dep) : List String :=
  deps.foldl parse_step []

/-- Models Python `str.splitlines()` for newline-separated text: split
on `\n`, dropping the trailing empty field produced by a final
newline; the empty string yields no lines. -/
def pySplitlines (s : String) : List String :=
  if s.toList = [] then []
  else
    let parts := splitOnChar '\n' s.toList
    (if parts.getLast? = some [] then parts.dropLast else parts).map
      (fun l => l.asString)

/-- The line-processing loop of `get_conda_list_versions` (lines
40-46): every line containing `=` contributes its first two
`=`-delimited fields joined by `=`; lines without `=` are skipped. -/
def conda_list_step (conda_list : List String) (line : String) : List String :=
  if '=' ∈ line.toList then conda_list ++ [firstTwoFields line]
  else conda_list

/-- The `for line in result.stdout.splitlines()` loop of
`get_conda_list_versions`, as a fold of `conda_list_step`. -/
def conda_list_of_stdout (stdoutLines : List String) : List String :=
  stdoutLines.foldl conda_list_step []

/-- Observable result of a `subprocess.run` invocation. -/
structure ProcResult where
  exitCode : Nat
  stdout : String
  stderr : String
deriving DecidableEq

/-- A fatal termination: `sys.exit` code paired with the
`logging.error` message emitted just before it. -/
structure ExitErr where
  code : Nat
  msg : String
deriving DecidableEq

-- Equality of `Except` values is decidable once both component types
-- are, so concrete runs can be checked by evaluation.
deriving instance DecidableEq for Except

/-- Embeds `get_conda_list_versions` (lines 27-49): on exit code 0 of
`conda list --export`, parse its stdout lines; on non-zero exit
(`CalledProcessError`), exit 1 forwarding the tool's stderr. -/
def get_conda_list_versions (r : ProcResult) : Except ExitErr (List String) :=
  if r.exitCode = 0 then
    Except.ok (conda_list_of_stdout (pySplitlines r.stdout))
  else
    Except.error ⟨1, "Failed to run conda list: " ++ r.stderr⟩

/-- The dict comprehension of `filter_conda_list_with_history` (line
55): a Python dict is modelled as its lookup function; inserting an
existing key overwrites the previous value. -/
def conda_dict_step (conda_dict : String → Option String) (pkg : String) :
    String → Option String :=
  if '=' ∈ pkg.toList then
    fun name => if name = pkgName pkg then some pkg else conda_dict name
  else conda_dict

/-- The dict built by the comprehension, as a fold of `conda_dict_step`
starting from the empty dict. -/
def build_conda_dict (conda_list : List String) : String → Option String :=
  conda_list.foldl conda_dict_step (fun _ => none)

/-- Embeds `filter_conda_list_with_history` (lines 51-57): for each
history package in order, look it up in the dict built from
`conda_list`, keeping the hits (`pkg in conda_dict` guards the
access, so this is exactly a `filterMap`). -/
def filter_conda_list_with_history (history_packages conda_list : List String) :
    List String :=
  let conda_dict := build_conda_dict conda_list
  history_packages.filterMap conda_dict

/-- Embeds `write_requirements_txt` (lines 59-66) as the byte content
written to the output file: each package followed by a newline. -/
def write_requirements_txt (conda_packages : List String) : String :=
  conda_packages.foldl (fun acc package => acc ++ package ++ "\n") ""

/-- Embeds `get_active_conda_env` (lines 68-76): read
`CONDA_DEFAULT_ENV` (`none` when unset); exit 1 with a message when it
equals `"base"`, otherwise return it unchanged. -/
def get_active_conda_env (conda_env : Option String) :
    Except ExitErr (Option String) :=
  if conda_env = some "base" then
    Except.error ⟨1, "You are using the 'base' conda environment. Please activate another environment."⟩
  else
    Except.ok conda_env

/-- Embeds `export_conda_env` (lines 78-93): on exit code 0 of
`conda env export --from-history`, return its stdout; on non-zero
exit, exit 1 forwarding the tool's stderr. -/
def export_conda_env (r : ProcResult) : Except ExitErr String :=
  if r.exitCode = 0 then Except.ok r.stdout
  else Except.error ⟨1, "Failed to export conda environment: " ++ r.stderr⟩

/-- The ambient state a run observes: the `CONDA_DEFAULT_ENV`
variable, the results of the two external invocations, and the
contents of the YML file when a path was given on the command line. -/
structure World where
  condaDefaultEnv : Option String
  exportResult : ProcResult
  listResult : ProcResult
  ymlFileContents : Option String
deriving DecidableEq

/-- The source-resolution prefix of `main` (lines 125-135): with no
YML file, require a non-base environment and export the active one;
with a file, use its contents. -/
def resolve_source (w : World) : Except ExitErr String :=
  match w.ymlFileContents with
  | none =>
    match get_active_conda_env w.condaDefaultEnv with
    | Except.error e => Except.error e
    | Except.ok _ => export_conda_env w.exportResult
  | some contents => Except.ok contents

/-- Embeds `main` (lines 95-147), parametric in the external
`yaml.safe_load`-based extraction of the `dependencies` sequence from
raw text. Returns the list of lines written to the output file, or
the fatal exit. -/
def main (yamlDeps : String → List Dep) (w : World) :
    Except ExitErr (List String) :=
  match resolve_source w with
  | Except.error e => Except.error e
  | Except.ok yml_contents =>
    match get_conda_list_versions w.listResult with
    | Except.error e => Except.error e
    | Except.ok conda_list =>
      Except.ok (filter_conda_list_with_history
        (parse_environment_yml (yamlDeps yml_contents)) conda_list)

/-- The bytes of the output file after a run: `none` when the run
exits fatally before writing. -/
def main_output_file (yamlDeps : String → List Dep) (w : World) :
    Option String :=
  match main yamlDeps w with
  | Except.ok conda_packages => some (write_requirements_txt conda_packages)
  | Except.error _ => none

/-! ### Helper lemmas -/

/-- A fold whose step only appends to its accumulator distributes over
the accumulator. -/
theorem foldl_append_accum {α β : Type} (f : List β → α → List β)
    (hf : ∀ acc x, f acc x = acc ++ f [] x) (l : List α) (acc : List β) :
    l.foldl f acc = acc ++ l.foldl f [] := by
  induction l generalizing acc with
  | nil => simp
  | cons x xs ih =>
    rw [List.foldl_cons, List.foldl_cons, ih (f acc x), ih (f [] x), hf acc x,
      List.append_assoc]

theorem parse_step_accum (acc : List String) (dep : Dep) :
    parse_step acc dep = acc ++ parse_step [] dep := by
  cases dep with
  | str s => simp only [parse_step]; split <;> simp
  | dict o => cases o <;> simp [parse_step]

/-- Head unfolding of the extractor. -/
theorem parse_environment_yml_cons (d : Dep) (ds : List Dep) :
    parse_environment_yml (d :: ds) = parse_step [] d ++ parse_environment_yml ds := by
  unfold parse_environment_yml
  rw [List.foldl_cons]
  exact foldl_append_accum parse_step parse_step_accum ds (parse_step [] d)

theorem conda_list_step_accum (acc : List String) (line : String) :
    conda_list_step acc line = acc ++ conda_list_step [] line := by
  simp only [conda_list_step]; split <;> simp

/-- Head unfolding of the `conda list --export` line loop. -/
theorem conda_list_of_stdout_cons (line : String) (rest : List String) :
    conda_list_of_stdout (line :: rest) =
      conda_list_step [] line ++ conda_list_of_stdout rest := by
  unfold conda_list_of_stdout
  rw [List.foldl_cons]
  exact foldl_append_accum conda_list_step conda_list_step_accum rest
    (conda_list_step [] line)

theorem getLast_cons_or {α : Type} (p : α) (L : List α) :
    (p :: L).getLast? = L.getLast?.or (some p) := by
  cases L with
  | nil => simp
  | cons q L' =>
    rw [List.getLast?_cons_cons]
    cases h : (q :: L').getLast? with
    | none => exact absurd (List.getLast?_eq_none_iff.mp h) (by simp)
    | some v => simp [Option.or]

theorem mem_of_getLast_eq {α : Type} {l : List α} {a : α}
    (h : l.getLast? = some a) : a ∈ l := by
  obtain ⟨hne, heq⟩ := List.mem_getLast?_eq_getLast (Option.mem_def.mpr h)
  exact heq ▸ List.getLast_mem hne

/-- Looking up `name` in the dict fold: the last matching entry of the
list wins, and the initial dict answers only when no entry matches. -/
theorem conda_dict_fold_lookup (conda_list : List String)
    (d : String → Option String) (name : String) :
    (conda_list.foldl conda_dict_step d) name =
      ((conda_list.filter
          (fun pkg => decide ('=' ∈ pkg.toList ∧ pkgName pkg = name))).getLast?).or
        (d name) := by
  induction conda_list generalizing d with
  | nil => simp
  | cons p cl ih =>
    rw [List.foldl_cons, ih (conda_dict_step d p), List.filter_cons]
    by_cases hp : ('=' ∈ p.toList ∧ pkgName p = name)
    · obtain ⟨h1, h2⟩ := hp
      rw [if_pos (decide_eq_true ⟨h1, h2⟩), getLast_cons_or, Option.or_assoc]
      have hstep : conda_dict_step d p name = some p := by
        unfold conda_dict_step
        rw [if_pos h1]
        exact if_pos h2.symm
      rw [hstep]
      simp [Option.or]
    · rw [if_neg (by simp only [decide_eq_true_eq]; exact hp)]
      have hstep : conda_dict_step d p name = d name := by
        by_cases h1 : '=' ∈ p.toList
        · have h2 : ¬ pkgName p = name := fun h2 => hp ⟨h1, h2⟩
          unfold conda_dict_step
          rw [if_pos h1]
          exact if_neg (fun e => h2 e.symm)
        · unfold conda_dict_step
          rw [if_neg h1]
      rw [hstep]

/-- The dict of `filter_conda_list_with_history` maps a name to the
last entry of `conda_list` whose text before the first `=` is that
name (and that contains `=`). -/
theorem build_conda_dict_eq (conda_list : List String) (name : String) :
    build_conda_dict conda_list name =
      (conda_list.filter
        (fun pkg => decide ('=' ∈ pkg.toList ∧ pkgName pkg = name))).getLast? := by
  unfold build_conda_dict
  rw [conda_dict_fold_lookup]
  exact Option.or_none

/-- A successful dict lookup returns an entry of `conda_list` whose
name part is the looked-up name. -/
theorem build_conda_dict_some {conda_list : List String} {name v : String}
    (h : build_conda_dict conda_list name = some v) :
    v ∈ conda_list ∧ '=' ∈ v.toList ∧ pkgName v = name := by
  rw [build_conda_dict_eq] at h
  have hv := mem_of_getLast_eq h
  have hm := List.mem_filter.mp hv
  exact ⟨hm.1, of_decide_eq_true hm.2⟩

theorem mem_of_isPrefixOf {l t : List Char} (h : l.isPrefixOf t = true)
    {c : Char} (hc : c ∈ l) : c ∈ t := by
  induction l generalizing t with
  | nil => simp at hc
  | cons a l ih =>
    cases t with
    | nil => simp [List.isPrefixOf] at h
    | cons b t' =>
      simp only [List.isPrefixOf, Bool.and_eq_true, beq_iff_eq] at h
      rcases List.mem_cons.mp hc with rfl | hc'
      · exact h.1 ▸ List.mem_cons_self b t'
      · exact List.mem_cons_of_mem b (ih h.2 hc')

theorem mem_of_mem_tails {α : Type} {t hay : List α} (ht : t ∈ hay.tails)
    {c : α} (hc : c ∈ t) : c ∈ hay := by
  induction hay with
  | nil =>
    simp only [List.tails] at ht
    rw [List.mem_singleton.mp ht] at hc
    simp at hc
  | cons a h ih =>
    rw [List.tails_cons] at ht
    rcases List.mem_cons.mp ht with rfl | ht'
    · exact hc
    · exact List.mem_cons_of_mem a (ih ht')

/-- The substring test is false whenever the needle holds a character
the haystack lacks. -/
theorem containsSub_false_of_not_mem {needle hay : List Char} {c : Char}
    (hc : c ∈ needle) (h : c ∉ hay) : listContainsSub needle hay = false := by
  cases hb : listContainsSub needle hay with
  | false => rfl
  | true =>
    exfalso
    unfold listContainsSub at hb
    obtain ⟨t, ht, hpre⟩ := List.any_eq_true.mp hb
    exact h (mem_of_mem_tails ht (mem_of_isPrefixOf hpre hc))

theorem splitOnChar_of_not_mem {c : Char} :
    ∀ {l : List Char}, c ∉ l → splitOnChar c l = [l] := by
  intro l
  induction l with
  | nil => intro _; rfl
  | cons a rest ih =>
    intro h
    have ha : ¬ a = c := fun e => h (e ▸ List.mem_cons_self a rest)
    have hr : c ∉ rest := fun hm => h (List.mem_cons_of_mem a hm)
    rw [splitOnChar, if_neg ha, ih hr]
    rfl

/-- A string without `=` is its own name part. -/
theorem pkgName_of_not_mem {s : String} (h : '=' ∉ s.toList) : pkgName s = s := by
  unfold pkgName
  rw [splitOnChar_of_not_mem h]
  exact String.asString_toList s

/-- A run succeeds exactly when the source resolves and the listing
invocation exits 0, and then the output is the filtered listing. -/
theorem main_ok_iff (f : String → List Dep) (w : World) (out : List String) :
    main f w = Except.ok out ↔
      ∃ txt, resolve_source w = Except.ok txt ∧ w.listResult.exitCode = 0 ∧
        out = filter_conda_list_with_history (parse_environment_yml (f txt))
          (conda_list_of_stdout (pySplitlines w.listResult.stdout)) := by
  unfold main get_conda_list_versions
  cases hres : resolve_source w with
  | error err => simp
  | ok txt =>
    by_cases hex : w.listResult.exitCode = 0
    · rw [if_pos hex]
      constructor
      · intro h
        exact ⟨txt, rfl, hex, ((Except.ok.injEq _ _).mp h).symm⟩
      · rintro ⟨txt2, ht2, -, hout⟩
        obtain rfl : txt = txt2 := (Except.ok.injEq _ _).mp ht2
        rw [hout]
    · rw [if_neg hex]
      constructor
      · intro h
        exact absurd h (by simp)
      · rintro ⟨txt2, -, hex2, -⟩
        exact absurd hex2 hex

/-! ### Claim theorems -/

/-- C1 counterexample: with listing entries `a=1` then `a=2` for the
same name, the mapping (and hence the filter stage) yields `a=2`, the
last entry, not `a=1`, the first. -/
theorem C1_counterexample :
    build_conda_dict ["a=1", "a=2"] "a" = some "a=2" ∧
    build_conda_dict ["a=1", "a=2"] "a" ≠ some "a=1" ∧
    filter_conda_list_with_history ["a"] ["a=1", "a=2"] = ["a=2"] := by decide

/-- C1 (amended): the installed-version lookup mapping is last-wins:
it associates each name with the last conda-list entry containing `=`
whose part before the first `=` is that name, overwriting earlier
duplicates, and the filter stage reads names through exactly that
mapping. -/
theorem C1_lookup_last_wins :
    (∀ (conda_list : List String) (name : String),
      build_conda_dict conda_list name =
        (conda_list.filter
          (fun pkg => decide ('=' ∈ pkg.toList ∧ pkgName pkg = name))).getLast?) ∧
    (∀ history conda_list : List String,
      filter_conda_list_with_history history conda_list =
        history.filterMap (fun name =>
          (conda_list.filter
            (fun pkg =>
              decide ('=' ∈ pkg.toList ∧ pkgName pkg = name))).getLast?)) := by
  refine ⟨fun conda_list name => build_conda_dict_eq conda_list name, ?_⟩
  intro history conda_list
  exact congrArg (fun d => List.filterMap d history)
    (funext (build_conda_dict_eq conda_list))

/-- C2: the filter stage outputs, in extractor order, the mapping's
entry for each name present and omits absent names; extractor order
`["b","a"]` against the mapping built from `["a=1","b=2"]` yields
`["b=2","a=1"]`. -/
theorem C2_filter_order :
    (∀ (name : String) (rest conda_list : List String),
      filter_conda_list_with_history (name :: rest) conda_list =
        (match build_conda_dict conda_list name with
         | some v => v :: filter_conda_list_with_history rest conda_list
         | none => filter_conda_list_with_history rest conda_list)) ∧
    (∀ conda_list : List String,
      filter_conda_list_with_history [] conda_list = []) ∧
    filter_conda_list_with_history ["b", "a"] ["a=1", "b=2"] = ["b=2", "a=1"] := by
  refine ⟨fun name rest conda_list => ?_, fun _ => rfl, by decide⟩
  show (name :: rest).filterMap (build_conda_dict conda_list) = _
  rw [List.filterMap_cons]
  cases h : build_conda_dict conda_list name <;> rfl

/-- C3: every entry of a successful run's output file has a name that
occurs in the extractor's output and is a key of the installed-version
lookup mapping. -/
theorem C3_written_invariant :
    ∀ (yamlDeps : String → List Dep) (w : World) (out : List String) (e : String),
      main yamlDeps w = Except.ok out → e ∈ out →
      ∃ txt, resolve_source w = Except.ok txt ∧
        pkgName e ∈ parse_environment_yml (yamlDeps txt) ∧
        (build_conda_dict
          (conda_list_of_stdout (pySplitlines w.listResult.stdout))
          (pkgName e)).isSome = true := by
  intro f w out e hmain he
  obtain ⟨txt, hres, hex, hout⟩ := (main_ok_iff f w out).mp hmain
  subst hout
  have he' : e ∈ (parse_environment_yml (f txt)).filterMap
      (build_conda_dict (conda_list_of_stdout (pySplitlines w.listResult.stdout))) := he
  obtain ⟨n, hn, hsome⟩ := List.mem_filterMap.mp he'
  have hname : pkgName e = n := (build_conda_dict_some hsome).2.2
  refine ⟨txt, hres, ?_, ?_⟩
  · rw [hname]; exact hn
  · rw [hname, hsome]; rfl

/-- C4 counterexample: with `CONDA_DEFAULT_ENV` unset and no file
given, the program does not terminate fatally: the check passes the
unset value through, and a run with successful external invocations
completes. -/
theorem C4_counterexample :
    get_active_conda_env none = Except.ok none ∧
    main (fun _ => []) ⟨none, ⟨0, "", ""⟩, ⟨0, "", ""⟩, none⟩ = Except.ok [] := by
  decide

/-- C4 (amended): when no description file is given the program
terminates fatally with exit code 1 and a user message exactly when
the active environment is "base"; any other value, including the
unset one, is passed through and the run proceeds to export. -/
theorem C4_base_env_check :
    (∀ env : Option String,
      get_active_conda_env env =
          Except.error ⟨1, "You are using the 'base' conda environment. Please activate another environment."⟩ ↔
        env = some "base") ∧
    (∀ env : Option String, env ≠ some "base" →
      get_active_conda_env env = Except.ok env) ∧
    (∀ (f : String → List Dep) (w : World), w.ymlFileContents = none →
      w.condaDefaultEnv = some "base" →
      main f w =
        Except.error ⟨1, "You are using the 'base' conda environment. Please activate another environment."⟩) ∧
    (∀ (f : String → List Dep) (w : World), w.ymlFileContents = none →
      w.condaDefaultEnv ≠ some "base" →
      resolve_source w = export_conda_env w.exportResult) := by
  refine ⟨fun env => ?_, fun env h => ?_, fun f w h1 h2 => ?_, fun _ w h1 h2 => ?_⟩
  · unfold get_active_conda_env
    by_cases h : env = some "base" <;> simp [h]
  · unfold get_active_conda_env
    rw [if_neg h]
  · simp [main, resolve_source, get_active_conda_env, h1, h2]
  · simp [resolve_source, get_active_conda_env, h1, h2]

/-- C5: the extractor maps the dependency list
`["numpy=1.2", "python=3.9", {"pip": ["flask=2.0"]}]` to exactly
`["numpy", "flask"]`: pins stripped at the first `=`, the
Python-version entry excluded, pip-group entries flattened in
place. -/
theorem C5_extractor_example :
    parse_environment_yml
        [Dep.str "numpy=1.2", Dep.str "python=3.9",
          Dep.dict (some ["flask=2.0"])] =
      ["numpy", "flask"] := by decide

/-- C6: every listing line with `=` contributes exactly its first two
`=`-delimited fields joined by `=` (so `numpy=1.2.3=py39h1` yields
`numpy=1.2.3`), and every line without `=` contributes nothing. -/
theorem C6_line_rule :
    (∀ (line : String) (rest : List String),
      conda_list_of_stdout (line :: rest) =
        (if '=' ∈ line.toList then [firstTwoFields line] else []) ++
          conda_list_of_stdout rest) ∧
    firstTwoFields "numpy=1.2.3=py39h1" = "numpy=1.2.3" ∧
    conda_list_of_stdout ["numpy=1.2.3=py39h1", "py39h1"] = ["numpy=1.2.3"] := by
  refine ⟨fun line rest => ?_, by decide, by decide⟩
  rw [conda_list_of_stdout_cons]
  exact rfl

/-- C7: a non-zero exit of either external invocation makes the run
terminate with exit code 1 and a message forwarding that tool's
stderr, and no output file is written. -/
theorem C7_external_failure :
    (∀ (f : String → List Dep) (w : World),
      w.ymlFileContents = none → w.condaDefaultEnv ≠ some "base" →
      w.exportResult.exitCode ≠ 0 →
      main f w =
          Except.error ⟨1, "Failed to export conda environment: " ++ w.exportResult.stderr⟩ ∧
        main_output_file f w = none) ∧
    (∀ (f : String → List Dep) (w : World),
      (w.ymlFileContents ≠ none ∨
        (w.condaDefaultEnv ≠ some "base" ∧ w.exportResult.exitCode = 0)) →
      w.listResult.exitCode ≠ 0 →
      main f w =
          Except.error ⟨1, "Failed to run conda list: " ++ w.listResult.stderr⟩ ∧
        main_output_file f w = none) := by
  constructor
  · intro f w h1 h2 h3
    have hres : resolve_source w =
        Except.error ⟨1, "Failed to export conda environment: " ++ w.exportResult.stderr⟩ := by
      simp [resolve_source, get_active_conda_env, export_conda_env, h1, h2, h3]
    have hm : main f w =
        Except.error ⟨1, "Failed to export conda environment: " ++ w.exportResult.stderr⟩ := by
      simp [main, hres]
    exact ⟨hm, by simp [main_output_file, hm]⟩
  · intro f w h1 h2
    have hres : ∃ txt, resolve_source w = Except.ok txt := by
      rcases h1 with h1 | ⟨hb, hex⟩
      · cases hy : w.ymlFileContents with
        | none => exact absurd hy h1
        | some t => exact ⟨t, by simp [resolve_source, hy]⟩
      · cases hy : w.ymlFileContents with
        | none =>
          exact ⟨w.exportResult.stdout,
            by simp [resolve_source, get_active_conda_env, export_conda_env, hy, hb, hex]⟩
        | some t => exact ⟨t, by simp [resolve_source, hy]⟩
    obtain ⟨txt, hres⟩ := hres
    have hm : main f w =
        Except.error ⟨1, "Failed to run conda list: " ++ w.listResult.stderr⟩ := by
      simp [main, hres, get_conda_list_versions, h2]
    exact ⟨hm, by simp [main_output_file, hm]⟩

/-- C8: the pipeline is deterministic: any two runs — file-based or
export-based, with otherwise arbitrary ambient state — whose resolved
raw environment-description text is identical and whose
installed-package listing invocation has identical exit code and
stdout produce byte-identical output files. -/
theorem C8_deterministic :
    ∀ (f : String → List Dep) (txt : String) (w1 w2 : World),
      resolve_source w1 = Except.ok txt →
      resolve_source w2 = Except.ok txt →
      w1.listResult.exitCode = w2.listResult.exitCode →
      w1.listResult.stdout = w2.listResult.stdout →
      main_output_file f w1 = main_output_file f w2 := by
  intro f txt w1 w2 h1 h2 h3 h4
  simp only [main_output_file, main, get_conda_list_versions, h1, h2, h3, h4]
  by_cases hc : w2.listResult.exitCode = 0
  · simp [hc]
  · simp [hc]

/-- C9 counterexample: `pipdeptree` contains no `=`, yet the extractor
drops it (it contains `pip` as a substring) instead of yielding it
unchanged. -/
theorem C9_counterexample :
    '=' ∉ "pipdeptree".toList ∧
    parse_environment_yml [Dep.str "pipdeptree"] = [] ∧
    parse_environment_yml [Dep.str "pipdeptree"] ≠ ["pipdeptree"] := by decide

/-- C9 (amended): a plain dependency string with no `=` that moreover
does not contain `pip` as a substring is yielded unchanged by the
extractor. -/
theorem C9_plain_passthrough :
    ∀ (s : String) (ds : List Dep), '=' ∉ s.toList →
      listContainsSub "pip".toList s.toList = false →
      parse_environment_yml (Dep.str s :: ds) = s :: parse_environment_yml ds := by
  intro s ds h1 h2
  have h3 : listContainsSub "python=".toList s.toList = false :=
    containsSub_false_of_not_mem (show '=' ∈ "python=".toList by decide) h1
  have hstep : parse_step [] (Dep.str s) = [pkgName s] := by
    simp only [parse_step]
    rw [h2, h3]
    rfl
  rw [parse_environment_yml_cons, hstep, pkgName_of_not_mem h1]
  rfl

/-- C10: a plain dependency string containing `pip` or `python=` as a
substring anywhere is skipped by the extractor; in particular
`pipdeptree` and `ipython=7.0` are silently excluded. -/
theorem C10_substring_skip :
    (∀ (s : String) (ds : List Dep),
      (listContainsSub "pip".toList s.toList = true ∨
        listContainsSub "python=".toList s.toList = true) →
      parse_environment_yml (Dep.str s :: ds) = parse_environment_yml ds) ∧
    parse_environment_yml [Dep.str "pipdeptree", Dep.str "ipython=7.0"] = [] := by
  constructor
  · intro s ds h
    have hstep : parse_step [] (Dep.str s) = [] := by
      simp only [parse_step]
      rcases h with h | h
      · rw [h]
        rfl
      · rw [h]
        cases hpip : listContainsSub "pip".toList s.toList <;> rfl
    rw [parse_environment_yml_cons, hstep]
    rfl
  · decide

/-! ### Witnesses -/

theorem C3_witness :
    ∃ txt,
      resolve_source
          ⟨some "e", ⟨0, "", ""⟩, ⟨0, "flask=2.3.1=h0\n", ""⟩, some "doc"⟩ =
        Except.ok txt ∧
      pkgName "flask=2.3.1" ∈ parse_environment_yml [Dep.str "flask"] ∧
      (build_conda_dict (conda_list_of_stdout (pySplitlines "flask=2.3.1=h0\n"))
        (pkgName "flask=2.3.1")).isSome = true :=
  C3_written_invariant (fun _ => [Dep.str "flask"])
    ⟨some "e", ⟨0, "", ""⟩, ⟨0, "flask=2.3.1=h0\n", ""⟩, some "doc"⟩
    ["flask=2.3.1"] "flask=2.3.1" (by decide) (by decide)

theorem C4_witness :
    get_active_conda_env (some "myenv") = Except.ok (some "myenv") ∧
    main (fun _ => []) ⟨some "base", ⟨0, "", ""⟩, ⟨0, "", ""⟩, none⟩ =
      Except.error ⟨1, "You are using the 'base' conda environment. Please activate another environment."⟩ :=
  ⟨C4_base_env_check.2.1 (some "myenv") (by decide),
    C4_base_env_check.2.2.1 (fun _ => []) ⟨some "base", ⟨0, "", ""⟩, ⟨0, "", ""⟩, none⟩
      rfl rfl⟩

theorem C7_witness :
    (main (fun _ => []) ⟨some "env", ⟨2, "", "boom"⟩, ⟨0, "", ""⟩, none⟩ =
        Except.error ⟨1, "Failed to export conda environment: boom"⟩ ∧
      main_output_file (fun _ => [])
        ⟨some "env", ⟨2, "", "boom"⟩, ⟨0, "", ""⟩, none⟩ = none) ∧
    (main (fun _ => []) ⟨none, ⟨0, "", ""⟩, ⟨3, "", "bad"⟩, some "t"⟩ =
        Except.error ⟨1, "Failed to run conda list: bad"⟩ ∧
      main_output_file (fun _ => [])
        ⟨none, ⟨0, "", ""⟩, ⟨3, "", "bad"⟩, some "t"⟩ = none) :=
  ⟨C7_external_failure.1 (fun _ => [])
      ⟨some "env", ⟨2, "", "boom"⟩, ⟨0, "", ""⟩, none⟩ rfl (by decide) (by decide),
    C7_external_failure.2 (fun _ => [])
      ⟨none, ⟨0, "", ""⟩, ⟨3, "", "bad"⟩, some "t"⟩ (Or.inl (by decide)) (by decide)⟩

theorem C8_witness :
    main_output_file (fun _ => [Dep.str "numpy"])
        ⟨some "envA", ⟨0, "doc", "e1"⟩, ⟨0, "numpy=1.0=h1\n", "w1"⟩, none⟩ =
      main_output_file (fun _ => [Dep.str "numpy"])
        ⟨none, ⟨1, "", "boom"⟩, ⟨0, "numpy=1.0=h1\n", "w2"⟩, some "doc"⟩ :=
  C8_deterministic (fun _ => [Dep.str "numpy"]) "doc"
    ⟨some "envA", ⟨0, "doc", "e1"⟩, ⟨0, "numpy=1.0=h1\n", "w1"⟩, none⟩
    ⟨none, ⟨1, "", "boom"⟩, ⟨0, "numpy=1.0=h1\n", "w2"⟩, some "doc"⟩
    (by decide) (by decide) rfl rfl

theorem C9_witness :
    parse_environment_yml [Dep.str "requests"] = ["requests"] :=
  C9_plain_passthrough "requests" [] (by decide) (by decide)

theorem C10_witness :
    parse_environment_yml [Dep.str "pipdeptree"] = parse_environment_yml [] :=
  C10_substring_skip.1 "pipdeptree" [] (Or.inl (by decide))

end GenerateReqs
